import Mathlib

/-
  Verification development for the panel cutting pipeline of `panel2d.py`
  (class `Panel2D`).

  Shallow embedding conventions:
  * Coordinates are exact rationals (the Python code computes with floats
    purely as glue around the geometry kernel; all the placement arithmetic
    in `add_library_shape` is plain field arithmetic).
  * A `Wire` is a closed polygonal boundary: its vertex list together with
    its topological orientation flag (OpenCASCADE's `Reverse()` flips the
    flag and leaves the geometry alone).
  * A `Face` is the list of wires a `TopExp_Explorer(face, TopAbs_WIRE)`
    walk would produce: the outer loop first, then the hole loops.  A
    `Shape` is likewise the list of wires discoverable inside a loaded
    BREP shape (the explorer finds wires recursively, so a shape that only
    contains faces still yields their wires).
  * The opaque kernel capabilities that `Panel2D` merely invokes —
    `BRepAlgoAPI_Cut`, `BRepCheck_Analyzer`, `BRepBuilderAPI_MakeFace`
    completion — are fields of a `Kernel` record: the pipeline glue is
    embedded faithfully, parametric in the kernel, and concrete kernel
    instances (whose tables record hand-checked rectangle geometry) are
    used for concrete runs.
  * Surface area of planar polygonal faces is computed by the shoelace
    formula, which is exactly what `brepgprop.SurfaceProperties` reports
    for such faces (outer area minus hole areas).
  * Python exceptions escaping a method are modelled with `Except`.
-/

namespace CPQ4

abbrev Point : Type := ℚ × ℚ

/-- A closed polygonal wire: vertices plus the orientation flag that
`TopoDS_Shape.Reverse()` toggles. -/
structure Wire where
  pts : List Point
  rev : Bool
deriving DecidableEq, Repr

/-- The wires of a face, outer loop first (what `TopExp_Explorer` yields). -/
abbrev Face : Type := List Wire

/-- The wires discoverable inside a loaded BREP shape. -/
abbrev Shape : Type := List Wire

/-- Axis-aligned bounding box, as returned by `Bnd_Box.Get()`. -/
structure BBox where
  x0 : ℚ
  y0 : ℚ
  x1 : ℚ
  y1 : ℚ
deriving DecidableEq, Repr

/-- One `Bnd_Box.Add` update step. -/
def bboxStep (b : BBox) (r : Point) : BBox :=
  ⟨min b.x0 r.1, min b.y0 r.2, max b.x1 r.1, max b.y1 r.2⟩

def bboxPts : List Point → BBox
  | [] => ⟨0, 0, 0, 0⟩
  | q :: qs => qs.foldl bboxStep ⟨q.1, q.2, q.1, q.2⟩

/-- Rigid shift of a bounding box. -/
def bboxShift (dx dy : ℚ) (b : BBox) : BBox := ⟨b.x0 + dx, b.y0 + dy, b.x1 + dx, b.y1 + dy⟩

def bboxWire (w : Wire) : BBox := bboxPts w.pts

def bboxFace (f : Face) : BBox := bboxPts (f.map Wire.pts).flatten

def bboxCenter (b : BBox) : Point := ((b.x0 + b.x1) / 2, (b.y0 + b.y1) / 2)

def translatePt (dx dy : ℚ) (q : Point) : Point := (q.1 + dx, q.2 + dy)

def translateWire (dx dy : ℚ) (w : Wire) : Wire := ⟨w.pts.map (translatePt dx dy), w.rev⟩

/-- `TopoDS_Shape.Reverse()`: flip the orientation flag. -/
def reverseWire (w : Wire) : Wire := ⟨w.pts, !w.rev⟩

/-- Rotation about a pivot; `c` and `s` are the cosine and sine of the angle
that `gp_Trsf.SetRotation` receives (the code converts `angle_deg` with
`math.radians` before handing it to the kernel). -/
def rotPt (c s : ℚ) (pv : Point) (q : Point) : Point :=
  (pv.1 + c * (q.1 - pv.1) - s * (q.2 - pv.2),
   pv.2 + s * (q.1 - pv.1) + c * (q.2 - pv.2))

/-- Sum of cross products for the shoelace formula; `p0` closes the loop. -/
def crossSum (p0 : Point) : List Point → ℚ
  | [] => 0
  | [a] => a.1 * p0.2 - p0.1 * a.2
  | a :: b :: rest => (a.1 * b.2 - b.1 * a.2) + crossSum p0 (b :: rest)

def shoelace : List Point → ℚ
  | [] => 0
  | p :: ps => crossSum p (p :: ps)

/-- Enclosed area of a polygonal wire (`brepgprop.SurfaceProperties` of the
temporary face `_largest_wire_by_area_proxy` builds from it). -/
def wireArea (w : Wire) : ℚ := |shoelace w.pts| / 2

/-- Area reported for a face: outer loop area minus hole areas. -/
def faceArea : Face → ℚ
  | [] => 0
  | w :: hs => wireArea w - (hs.map wireArea).sum

/-- One comparison step of `_largest_face`: a strictly larger area wins,
the incumbent keeps ties (the source compares with `area > best_area`). -/
def pickFace (best g : Face) : Face := if faceArea best < faceArea g then g else best

/-- `Panel2D._largest_face`: scan the faces of a shape keeping the strictly
largest area, first seen wins ties; `none` (a raised `ValueError` in the
source) when there is no face at all. -/
def largest_face : List Face → Option Face
  | [] => none
  | f :: fs => some (fs.foldl pickFace f)

/-- One comparison step of `_largest_wire_by_area_proxy`. -/
def pickWire (best g : Wire) : Wire := if wireArea best < wireArea g then g else best

/-- `Panel2D._largest_wire_by_area_proxy`. -/
def largest_wire_by_area_proxy : List Wire → Option Wire
  | [] => none
  | w :: ws => some (ws.foldl pickWire w)

/-- The float tolerance `1e-12` used by the placement code. -/
def tol12 : ℚ := 1 / 10 ^ 12

/-- `Panel2D._translate_shape`: skipped entirely when both offsets are below
the tolerance, otherwise a rigid translation of every wire. -/
def translate_shape (dx dy : ℚ) (ws : List Wire) : List Wire :=
  if |dx| < tol12 ∧ |dy| < tol12 then ws else ws.map (translateWire dx dy)

/-- The mutable state of a `Panel2D` dataclass instance. -/
structure Panel2D where
  width : ℚ
  height : ℚ
  origin : Point
  edge_cuts : List Face
  inner_wires : List Wire
deriving DecidableEq, Repr

/-- `Panel2D._make_outer_rect_wire`. -/
def make_outer_rect_wire (p : Panel2D) : Wire :=
  ⟨[(p.origin.1, p.origin.2),
    (p.origin.1 + p.width, p.origin.2),
    (p.origin.1 + p.width, p.origin.2 + p.height),
    (p.origin.1, p.origin.2 + p.height)], false⟩

/-- `Panel2D._base_rect_face`. -/
def base_rect_face (p : Panel2D) : Face := [make_outer_rect_wire p]

/-- The opaque OpenCASCADE capabilities `Panel2D` invokes.  `cut f c`
returns `none` when `BRepAlgoAPI_Cut` does not report `IsDone`, otherwise
the faces of the boolean result.  `validFace`/`validWire` are
`BRepCheck_Analyzer(..., True).IsValid()`.  `makeFaceOk` tells whether
`BRepBuilderAPI_MakeFace` (with the given hole loops added) completes
without throwing. -/
structure Kernel where
  cut : Face → Face → Option (List Face)
  validFace : Face → Bool
  validWire : Wire → Bool
  makeFaceOk : Wire → List Wire → Bool

/-- Exceptions that can escape the build (`ValueError` sites in the source). -/
inductive BuildErr where
  | profileError
  | noFaceAfterBoolean
  | noWireForArea
  | makeFaceFailed
  | invalidGeometry
deriving DecidableEq, Repr

/-- Kernel capabilities invoked during `as_shape`, in order.  `fixFaceOp`
is the `ShapeFix_Face` orientation-fix capability that `panel2d.py`
imports at line 19. -/
inductive KOp where
  | cutOp
  | makeFaceOp
  | validateOp
  | fixFaceOp
deriving DecidableEq, Repr

/-- The keyword arguments of `Panel2D.add_library_shape`; `c`/`s` are the
cosine and sine of `angle_deg` as the kernel rotation realises it. -/
structure PlacementArgs where
  kind : String
  tx : ℚ
  ty : ℚ
  angle_deg : ℚ
  c : ℚ
  s : ℚ
  scale : ℚ
  edge : Option String
  position : ℚ
deriving DecidableEq, Repr

/-- `Panel2D._profile_wire_from_shape`: the first wire the explorer finds;
a shape without any wire raises (`ValueError`, via the empty-face path). -/
def profile_wire_from_shape (s : Shape) : Except BuildErr Wire :=
  match s with
  | [] => .error .profileError
  | w :: _ => .ok w

/-- `Panel2D._rotate_wire_around_center`: rotate about the wire's own
bounding-box minimum corner. -/
def rotate_wire_around_center (c s : ℚ) (w : Wire) : Wire :=
  let b := bboxWire w
  ⟨w.pts.map (rotPt c s (b.x0, b.y0)), w.rev⟩

/-- The inline renormalisation after rotation in `add_library_shape`
(lines 186-204): each strictly negative bounding-box minimum coordinate is
translated up to `0`, a nonnegative one is left alone. -/
def normalize_after_rotation (w : Wire) : Wire :=
  let b := bboxWire w
  if b.x0 < 0 ∨ b.y0 < 0 then
    translateWire (if b.x0 < 0 then -b.x0 else 0) (if b.y0 < 0 then -b.y0 else 0) w
  else w

/-- The wire the edge-affecting path works with downstream: rotated and
renormalised when `abs angle_deg > 1e-12`, the loaded wire otherwise. -/
def edge_downstream_wire (a : PlacementArgs) (w : Wire) : Wire :=
  if tol12 < |a.angle_deg| then
    normalize_after_rotation (rotate_wire_around_center a.c a.s w)
  else w

/-- The `tx`/`ty` computed from `edge`/`position` (lines 217-232): the
effective dimensions are read off the rotated-and-renormalised bounding
box; with no recognised edge the provided `tx`/`ty` are used verbatim. -/
def edge_translation (p : Panel2D) (a : PlacementArgs) (w' : Wire) : ℚ × ℚ :=
  let b := bboxWire w'
  match a.edge with
  | some "Left" => (0, a.position)
  | some "Right" => (p.width - (b.x1 - b.x0), a.position)
  | some "Top" => (a.position, p.height - (b.y1 - b.y0))
  | some "Bottom" => (a.position, 0)
  | _ => (a.tx, a.ty)

/-- The transformed cut face the edge-affecting path builds: a face from
the downstream wire, translated to the edge position. -/
def edge_placed_face (p : Panel2D) (a : PlacementArgs) (w : Wire) : Face :=
  let w' := edge_downstream_wire a w
  let d := edge_translation p a w'
  translate_shape d.1 d.2 [w']

/-- The centre-to-centre translation of the internal-cutout branch
(lines 84-101): move the wire's actual bounding-box centre to
`(originX + tx, originY + height - ty)`. -/
def internal_translation (p : Panel2D) (a : PlacementArgs) (w : Wire) : ℚ × ℚ :=
  let b := bboxWire w
  ((p.origin.1 + a.tx) - (b.x0 + b.x1) / 2,
   (p.origin.2 + p.height - a.ty) - (b.y0 + b.y1) / 2)

/-- `Panel2D.add_library_shape`, with the loaded BREP shape passed in
place of its file path.  The internal-cutout branch translates the whole
shape centre-to-centre, re-extracts the first wire, reverses it and
registers it as a hole; every other `kind` string takes the edge-affecting
branch, which registers the placed cut face only when the analyzer
approves it, silently dropping it otherwise. -/
def add_library_shape (K : Kernel) (p : Panel2D) (a : PlacementArgs) (shape : Shape) :
    Except BuildErr Panel2D :=
  match profile_wire_from_shape shape with
  | .error e => .error e
  | .ok wire =>
    if a.kind = "internal_cutout" then
      let d := internal_translation p a wire
      match (translate_shape d.1 d.2 shape).head? with
      | some pw => .ok { p with inner_wires := p.inner_wires ++ [reverseWire pw] }
      | none => .ok p
    else
      let w' := edge_downstream_wire a wire
      if K.makeFaceOk w' [] then
        let tface := edge_placed_face p a wire
        if K.validFace tface then
          .ok { p with edge_cuts := p.edge_cuts ++ [tface] }
        else
          .ok p
      else
        .error .makeFaceFailed

/-- The cut loop of `Panel2D._outer_wire_after_edge_cuts`: fold the pending
edge cuts over the current face, skipping a cut whose boolean is not done
and otherwise keeping the largest face of the result; also records the
kernel operations performed. -/
def apply_edge_cuts (K : Kernel) : Face → List Face → Except BuildErr Face × List KOp
  | f, [] => (.ok f, [])
  | f, cface :: rest =>
    match K.cut f cface with
    | none =>
      let r := apply_edge_cuts K f rest
      (r.1, .cutOp :: r.2)
    | some fs =>
      match largest_face fs with
      | none => (.error .noFaceAfterBoolean, [.cutOp])
      | some f' =>
        let r := apply_edge_cuts K f' rest
        (r.1, .cutOp :: r.2)

/-- `Panel2D._outer_wire_after_edge_cuts`: apply the cuts, then pick the
outer boundary among the wires of the final face by the largest-area
proxy; with no wires at all, fall back to the pristine rectangle wire. -/
def outer_wire_after_edge_cuts (K : Kernel) (p : Panel2D) :
    Except BuildErr Wire × List KOp :=
  let r := apply_edge_cuts K (base_rect_face p) p.edge_cuts
  match r.1 with
  | .error e => (.error e, r.2)
  | .ok f =>
    match f with
    | [] => (.ok (make_outer_rect_wire p), r.2)
    | ws =>
      match largest_wire_by_area_proxy ws with
      | some w => (.ok w, r.2)
      | none => (.error .noWireForArea, r.2)

/-- The face assembly both branches of `as_shape` perform: make a face from
the outer wire, add every registered inner wire as a hole, validate.  A
construction failure throws; a validation failure raises `ValueError`
(`_validate`). -/
def build_with_holes (K : Kernel) (ow : Wire) (holes : List Wire) :
    Except BuildErr Face × List KOp :=
  if K.makeFaceOk ow holes then
    let face := ow :: holes
    if K.validFace face then
      (.ok face, [.makeFaceOp, .validateOp])
    else
      (.error .invalidGeometry, [.makeFaceOp, .validateOp])
  else
    (.error .makeFaceFailed, [.makeFaceOp])

/-- `Panel2D.as_shape` together with the trace of kernel operations it
performs. -/
def as_shapeT (K : Kernel) (p : Panel2D) : Except BuildErr Face × List KOp :=
  if p.edge_cuts.isEmpty then
    build_with_holes K (make_outer_rect_wire p) p.inner_wires
  else
    let r := outer_wire_after_edge_cuts K p
    match r.1 with
    | .error e => (.error e, r.2)
    | .ok ow =>
      let r2 := build_with_holes K ow p.inner_wires
      (r2.1, r.2 ++ r2.2)

/-- `Panel2D.as_shape`. -/
def as_shape (K : Kernel) (p : Panel2D) : Except BuildErr Face := (as_shapeT K p).1

/-! Concrete geometry for concrete runs of the pipeline.  All faces below
are hole-free planar regions on a `10 × 10` panel; each kernel-table entry
records the hand-checked result of subtracting one region from another
(connected components of the set difference, exactly what
`BRepAlgoAPI_Cut` produces for these rectilinear inputs). -/

/-- An axis-aligned rectangle wire with corners `(x0, y0)` and `(x1, y1)`. -/
def rectW (x0 y0 x1 y1 : ℚ) : Wire :=
  ⟨[(x0, y0), (x1, y0), (x1, y1), (x0, y1)], false⟩

/-- A hole-free rectangular face. -/
def rectF (x0 y0 x1 y1 : ℚ) : Face := [rectW x0 y0 x1 y1]

/-- The `10 × 10` test panel with no registered shapes. -/
def panel10 : Panel2D := ⟨10, 10, (0, 0), [], []⟩

/-- The base face of `panel10`: the square `[0,10] × [0,10]`. -/
def faceP : Face := rectF 0 0 10 10

/- Disjoint pair whose order matters: the slot `fA` splits the panel. -/

/-- Full-height slot `[6,7] × [0,10]`. -/
def fA : Face := rectF 6 0 7 10
/-- Corner block `[0,5] × [0,7]`, disjoint from `fA`. -/
def fB : Face := rectF 0 0 5 7
/-- Left part of `panel10 ∖ fA`: `[0,6] × [0,10]`, area `60`. -/
def fL : Face := rectF 0 0 6 10
/-- Right part of `panel10 ∖ fA`: `[7,10] × [0,10]`, area `30`. -/
def fR : Face := rectF 7 0 10 10
/-- `fL ∖ fB`: the L-shaped region of area `25`. -/
def fLB : Face := [⟨[(5, 0), (6, 0), (6, 10), (0, 10), (0, 7), (5, 7)], false⟩]
/-- `panel10 ∖ fB`: the L-shaped region of area `65`. -/
def fPB : Face := [⟨[(5, 0), (10, 0), (10, 10), (0, 10), (0, 7), (5, 7)], false⟩]

/- Disjoint pair of corner notches, neither of which fragments the panel. -/

/-- Corner square `[0,2] × [0,2]`. -/
def fA2 : Face := rectF 0 0 2 2
/-- Opposite corner square `[8,10] × [8,10]`. -/
def fB2 : Face := rectF 8 8 10 10
/-- `panel10 ∖ fA2`, area `96`. -/
def fPA2 : Face := [⟨[(2, 0), (10, 0), (10, 10), (0, 10), (0, 2), (2, 2)], false⟩]
/-- `panel10 ∖ fB2`, area `96`. -/
def fPB2 : Face := [⟨[(0, 0), (10, 0), (10, 8), (8, 8), (8, 10), (0, 10)], false⟩]
/-- `panel10 ∖ fA2 ∖ fB2`, area `92`. -/
def fOct : Face :=
  [⟨[(2, 0), (10, 0), (10, 8), (8, 8), (8, 10), (0, 10), (0, 2), (2, 2)], false⟩]

/- Overlapping pair whose order matters: the T-shaped `fA3` (bottom row
`[0,10] × [0,1]` plus stem `[4,5] × [0,10]`) overlaps the block `fB3` in
`[5,10] × [0,1]`. -/

/-- T-shaped cut of area `19`. -/
def fA3 : Face :=
  [⟨[(0, 0), (10, 0), (10, 1), (5, 1), (5, 10), (4, 10), (4, 1), (0, 1)], false⟩]
/-- Block `[5,10] × [0,6]` of area `30`. -/
def fB3 : Face := rectF 5 0 10 6
/-- Left part of `panel10 ∖ fA3`: `[0,4] × [1,10]`, area `36`. -/
def fL3 : Face := rectF 0 1 4 10
/-- Right part of `panel10 ∖ fA3`: `[5,10] × [1,10]`, area `45`. -/
def fR3 : Face := rectF 5 1 10 10
/-- `fR3 ∖ fB3`: `[5,10] × [6,10]`, area `20`. -/
def fR3B : Face := rectF 5 6 10 10
/-- `panel10 ∖ fB3`: the L-shaped region of area `70`. -/
def fPB3 : Face := [⟨[(0, 0), (5, 0), (5, 6), (10, 6), (10, 10), (0, 10)], false⟩]

/-- A cut a boolean subtraction fails on (`IsDone` false). -/
def fX : Face := rectF 0 0 1 1
/-- A cut whose subtraction reports success but yields a degenerate face
with no extractable wires. -/
def fY : Face := rectF 2 2 3 3
/-- The degenerate wireless face. -/
def emptyFace : Face := []

/-- Table of hand-checked boolean subtraction results on the faces above. -/
def tableCut (f c : Face) : Option (List Face) :=
  if f = faceP ∧ c = fA then some [fL, fR]
  else if f = fL ∧ c = fB then some [fLB]
  else if f = faceP ∧ c = fB then some [fPB]
  else if f = fPB ∧ c = fA then some [fLB, fR]
  else if f = faceP ∧ c = fA2 then some [fPA2]
  else if f = fPA2 ∧ c = fB2 then some [fOct]
  else if f = faceP ∧ c = fB2 then some [fPB2]
  else if f = fPB2 ∧ c = fA2 then some [fOct]
  else if f = faceP ∧ c = fA3 then some [fL3, fR3]
  else if f = fR3 ∧ c = fB3 then some [fR3B]
  else if f = faceP ∧ c = fB3 then some [fPB3]
  else if f = fPB3 ∧ c = fA3 then some [fL3, fR3B]
  else if f = faceP ∧ c = fY then some [emptyFace]
  else none

/-- Concrete kernel with the hand-checked cut table; every shape involved
is analyzer-valid and face construction succeeds. -/
def Kc : Kernel := ⟨tableCut, fun _ => true, fun _ => true, fun _ _ => true⟩

/-- Permissive kernel: booleans never complete, everything is valid. -/
def Kok : Kernel := ⟨fun _ _ => none, fun _ => true, fun _ => true, fun _ _ => true⟩

/-- Rejecting kernel: the analyzer reports every face and wire invalid
(face construction still completes). -/
def Krej : Kernel := ⟨fun _ _ => none, fun _ => false, fun _ => false, fun _ _ => true⟩

/-- A self-intersecting (bowtie) quadrilateral: a malformed hole wire that
`BRepCheck_Analyzer` rejects once it sits inside a face. -/
def wBad : Wire := ⟨[(300, 300), (500, 500), (300, 500), (500, 300)], false⟩

/-- A well-formed square hole wire. -/
def wGood : Wire := ⟨[(100, 100), (200, 100), (200, 200), (100, 200)], true⟩

/-- Kernel that faithfully reports a face containing the bowtie wire as
invalid and accepts everything else. -/
def Kbad : Kernel :=
  ⟨fun _ _ => none, fun f => decide (wBad ∉ f), fun w => decide (w ≠ wBad), fun _ _ => true⟩

/-- The `800 × 1900` panel of the spec scenarios, with no registered shapes. -/
def panel800 : Panel2D := ⟨800, 1900, (0, 0), [], []⟩

deriving instance DecidableEq for Except

/-! Helper lemmas about the embedded pipeline. -/

theorem bboxStep_translate (dx dy : ℚ) (b : BBox) (r : Point) :
    bboxStep (bboxShift dx dy b) (translatePt dx dy r) = bboxShift dx dy (bboxStep b r) := by
  simp only [bboxStep, bboxShift, translatePt, BBox.mk.injEq]
  exact ⟨min_add_add_right .., min_add_add_right .., max_add_add_right .., max_add_add_right ..⟩

theorem foldl_bboxStep_translate (dx dy : ℚ) :
    ∀ (qs : List Point) (b : BBox),
      (qs.map (translatePt dx dy)).foldl bboxStep (bboxShift dx dy b) =
        bboxShift dx dy (qs.foldl bboxStep b)
  | [], _ => rfl
  | q :: qs, b => by
    rw [List.map_cons, List.foldl_cons, List.foldl_cons, bboxStep_translate]
    exact foldl_bboxStep_translate dx dy qs (bboxStep b q)

theorem bboxPts_translate (dx dy : ℚ) (q : Point) (qs : List Point) :
    bboxPts ((q :: qs).map (translatePt dx dy)) = bboxShift dx dy (bboxPts (q :: qs)) := by
  have hseed : (⟨(translatePt dx dy q).1, (translatePt dx dy q).2,
      (translatePt dx dy q).1, (translatePt dx dy q).2⟩ : BBox) =
      bboxShift dx dy ⟨q.1, q.2, q.1, q.2⟩ := rfl
  rw [List.map_cons]
  simp only [bboxPts]
  rw [hseed]
  exact foldl_bboxStep_translate dx dy qs ⟨q.1, q.2, q.1, q.2⟩

/-- Translating a nonempty wire shifts its bounding box rigidly. -/
theorem bboxWire_translate (dx dy : ℚ) (w : Wire) (h : w.pts ≠ []) :
    bboxWire (translateWire dx dy w) = bboxShift dx dy (bboxWire w) := by
  cases hp : w.pts with
  | nil => exact absurd hp h
  | cons q qs =>
    show bboxPts (w.pts.map (translatePt dx dy)) = bboxShift dx dy (bboxPts w.pts)
    rw [hp]
    exact bboxPts_translate dx dy q qs

theorem translateWire_zero (w : Wire) : translateWire 0 0 w = w := by
  cases w with
  | mk pts rev =>
    have h : ∀ q : Point, translatePt 0 0 q = q := fun q => by
      simp [translatePt]
    simp only [translateWire, Wire.mk.injEq, and_true]
    induction pts with
    | nil => rfl
    | cons q qs ih => rw [List.map_cons, h q, ih]

/-- Whatever `build_with_holes` returns as `ok` is the face made of the
outer wire followed by every registered hole, and it passed the analyzer. -/
theorem build_with_holes_ok_spec (K : Kernel) (ow : Wire) (hs : List Wire) (f : Face)
    (h : (build_with_holes K ow hs).1 = .ok f) :
    f = ow :: hs ∧ K.validFace f = true := by
  unfold build_with_holes at h
  by_cases hmk : K.makeFaceOk ow hs
  · rw [if_pos hmk] at h
    by_cases hv : K.validFace (ow :: hs)
    · rw [if_pos hv] at h
      cases h
      exact ⟨rfl, hv⟩
    · rw [if_neg hv] at h
      cases h
  · rw [if_neg hmk] at h
    cases h

/-- Whatever `as_shape` returns as `ok` carries all registered inner wires
as its hole loops and passed the final validation. -/
theorem as_shape_ok_spec (K : Kernel) (p : Panel2D) (f : Face)
    (h : as_shape K p = .ok f) :
    (∃ ow, f = ow :: p.inner_wires) ∧ K.validFace f = true := by
  unfold as_shape as_shapeT at h
  by_cases he : p.edge_cuts.isEmpty
  · rw [if_pos he] at h
    obtain ⟨h1, h2⟩ := build_with_holes_ok_spec K _ _ f h
    exact ⟨⟨_, h1⟩, h2⟩
  · rw [if_neg he] at h
    dsimp only at h
    cases hr : (outer_wire_after_edge_cuts K p).1 with
    | error e => rw [hr] at h; cases h
    | ok ow =>
      rw [hr] at h
      dsimp only at h
      obtain ⟨h1, h2⟩ := build_with_holes_ok_spec K _ _ f h
      exact ⟨⟨_, h1⟩, h2⟩

/-- Panel with a single, malformed (self-intersecting) hole wire. -/
def p1bad : Panel2D := ⟨800, 1900, (0, 0), [], [wBad]⟩

/-- Panel with two registered holes, one well-formed and one malformed. -/
def p2bad : Panel2D := ⟨800, 1900, (0, 0), [], [wGood, wBad]⟩

/-- Panel with a single well-formed hole wire. -/
def pGood : Panel2D := ⟨800, 1900, (0, 0), [], [wGood]⟩

/-- A second well-formed square hole wire. -/
def wGood2 : Wire := ⟨[(300, 1000), (400, 1000), (400, 1100), (300, 1100)], true⟩

/-- Panel with two well-formed hole wires. -/
def pG2 : Panel2D := ⟨800, 1900, (0, 0), [], [wGood, wGood2]⟩

/-- The `50 × 30` profile of the spec scenarios, anchored at the origin as
the upload-time canonicalisation leaves profiles. -/
def prof5030 : Wire := rectW 0 0 50 30

/-- Edge-affecting placement, left edge, position `500`, no rotation. -/
def argsLeft500 : PlacementArgs := ⟨"edge_affecting", 0, 0, 0, 1, 0, 1, some "Left", 500⟩

/-- Edge-affecting placement, right edge, position `500`, no rotation. -/
def argsRight500 : PlacementArgs := ⟨"edge_affecting", 0, 0, 0, 1, 0, 1, some "Right", 500⟩

/-- Edge-affecting placement, bottom edge, position `3`, no rotation. -/
def argsBottom3 : PlacementArgs := ⟨"edge_affecting", 0, 0, 0, 1, 0, 1, some "Bottom", 3⟩

/-- Where the left-edge scenario lands the `50 × 30` profile. -/
def placedLeft : Face := [⟨[(0, 500), (50, 500), (50, 530), (0, 530)], false⟩]

/-- Where the right-edge scenario lands the `50 × 30` profile. -/
def placedRight : Face := [⟨[(750, 500), (800, 500), (800, 530), (750, 530)], false⟩]

/-- A `20 × 20` profile anchored at the origin. -/
def w20 : Wire := rectW 0 0 20 20

/-- Internal-cutout placement at `tx = 400`, `ty = 950`, with a nonzero
rotation angle that the internal branch must ignore. -/
def argsInt400 : PlacementArgs := ⟨"internal_cutout", 400, 950, 25, 9 / 10, 4 / 10, 1, none, 0⟩

/-- The `10 × 10` panel with the single degenerate-result cut registered. -/
def panelY : Panel2D := ⟨10, 10, (0, 0), [fY], []⟩

/-- Disjointness of two axis-aligned bounding boxes (a sufficient
condition for the footprints of the enclosed faces to be disjoint). -/
def bboxDisjoint (b1 b2 : BBox) : Prop :=
  b1.x1 < b2.x0 ∨ b2.x1 < b1.x0 ∨ b1.y1 < b2.y0 ∨ b2.y1 < b1.y0

/-- Panel with the disjoint pair `fA`, `fB` in that order. -/
def panelAB : Panel2D := ⟨10, 10, (0, 0), [fA, fB], []⟩

/-- Panel with the disjoint pair `fB`, `fA` in the other order. -/
def panelBA : Panel2D := ⟨10, 10, (0, 0), [fB, fA], []⟩

/-- Panel with the disjoint corner notches `fA2`, `fB2`. -/
def panelA2B2 : Panel2D := ⟨10, 10, (0, 0), [fA2, fB2], []⟩

/-- Panel with the disjoint corner notches in the other order. -/
def panelB2A2 : Panel2D := ⟨10, 10, (0, 0), [fB2, fA2], []⟩

/-- Panel with the overlapping pair `fA3`, `fB3` (their regions share the
square `[5,10] × [0,1]`). -/
def panelA3B3 : Panel2D := ⟨10, 10, (0, 0), [fA3, fB3], []⟩

/-- Panel with the overlapping pair in the other order. -/
def panelB3A3 : Panel2D := ⟨10, 10, (0, 0), [fB3, fA3], []⟩

/-- A triangular profile whose bounding-box minimum corner `(0, 0)` is not
one of its vertices. -/
def wTri : Wire := ⟨[(0, 5), (5, 0), (5, 5)], false⟩

/-- Edge-affecting placement rotated by `arccos (4/5) ≈ 36.87°`: the
rational rotation `(c, s) = (4/5, 3/5)`. -/
def aRot37 : PlacementArgs := ⟨"edge_affecting", 0, 0, 37, 4 / 5, 3 / 5, 1, some "Left", 0⟩

/-- `panel10` after registering the bottom-edge placement of the
`50 × 30` profile. -/
def pReg10 : Panel2D := ⟨10, 10, (0, 0), [edge_placed_face panel10 argsBottom3 prof5030], []⟩

/-! Claim C1. -/

/-- Claim C1 as stated is false: on a panel whose registered inner wires
contain a malformed (self-intersecting) hole, `as_shape` raises the
`ValueError` of `_validate` — the exception escapes the build and no face,
rectangle or otherwise, is returned. -/
theorem claim_C1_counterexample :
    as_shape Kbad p1bad = .error .invalidGeometry ∧
    ¬ ∃ f, as_shape Kbad p1bad = .ok f := by
  have h : as_shape Kbad p1bad = .error .invalidGeometry := by
    norm_num [as_shape, as_shapeT, build_with_holes, Kbad, p1bad, make_outer_rect_wire, wBad]
  exact ⟨h, fun ⟨f, hf⟩ => by rw [h] at hf; exact Except.noConfusion hf⟩

/-- Claim C1, amended: whenever `as_shape` does return a face, that face
passed the Validator (`_validate` runs on every return path); but a
validation or construction failure raises and escapes — there is no
degrade-to-rectangle fallback at the face level. -/
theorem claim_C1 (K : Kernel) (p : Panel2D) (f : Face)
    (h : as_shape K p = .ok f) : K.validFace f = true :=
  (as_shape_ok_spec K p f h).2

/-- Witness for C1 at a concrete successful build. -/
theorem claim_C1_witness :
    Kbad.validFace [make_outer_rect_wire pGood, wGood] = true :=
  claim_C1 Kbad pGood [make_outer_rect_wire pGood, wGood] (by
    norm_num [as_shape, as_shapeT, build_with_holes, Kbad, pGood, make_outer_rect_wire,
      wGood, wBad, Wire.mk.injEq, Prod.mk.injEq])

/-! Claim C2. -/

/-- Claim C2 as stated is false: when face construction with the two
registered holes fails validation, the build does not fall back to the
face rebuilt from the outer wire alone — it raises, and in particular the
predicted zero-hole fallback face is not returned. -/
theorem claim_C2_counterexample :
    as_shape Kbad p2bad = .error .invalidGeometry ∧
    as_shape Kbad p2bad ≠ .ok [make_outer_rect_wire p2bad] := by
  have h : as_shape Kbad p2bad = .error .invalidGeometry := by
    norm_num [as_shape, as_shapeT, build_with_holes, Kbad, p2bad, make_outer_rect_wire,
      wGood, wBad, Wire.mk.injEq, Prod.mk.injEq]
  exact ⟨h, fun hf => by rw [h] at hf; exact Except.noConfusion hf⟩

/-- Claim C2, amended: there is no fallback; a face actually returned by
`as_shape` always carries all `N` registered holes as its inner loops
(never a proper nonempty subset), and on a validation failure no face at
all is returned. -/
theorem claim_C2 (K : Kernel) (p : Panel2D) (f : Face)
    (h : as_shape K p = .ok f) : ∃ ow, f = ow :: p.inner_wires :=
  (as_shape_ok_spec K p f h).1

/-- Witness for C2 at a concrete two-hole build. -/
theorem claim_C2_witness :
    ∃ ow, ([make_outer_rect_wire pG2, wGood, wGood2] : Face) = ow :: pG2.inner_wires :=
  claim_C2 Kbad pG2 [make_outer_rect_wire pG2, wGood, wGood2] (by
    norm_num [as_shape, as_shapeT, build_with_holes, Kbad, pG2, make_outer_rect_wire,
      wGood, wGood2, wBad, Wire.mk.injEq, Prod.mk.injEq])

/-- The renormalisation step clamps each bounding-box minimum coordinate
at `0` from below and leaves nonnegative ones unchanged. -/
theorem normalize_bbox_min (v : Wire) (hv : v.pts ≠ []) :
    (bboxWire (normalize_after_rotation v)).x0 = max (bboxWire v).x0 0 ∧
    (bboxWire (normalize_after_rotation v)).y0 = max (bboxWire v).y0 0 := by
  unfold normalize_after_rotation
  by_cases hc : (bboxWire v).x0 < 0 ∨ (bboxWire v).y0 < 0
  · rw [if_pos hc, bboxWire_translate _ _ v hv]
    simp only [bboxShift]
    constructor
    · by_cases hx : (bboxWire v).x0 < 0
      · rw [if_pos hx, max_eq_right (le_of_lt hx)]
        ring
      · rw [if_neg hx, max_eq_left (not_lt.mp hx)]
        ring
    · by_cases hy : (bboxWire v).y0 < 0
      · rw [if_pos hy, max_eq_right (le_of_lt hy)]
        ring
      · rw [if_neg hy, max_eq_left (not_lt.mp hy)]
        ring
  · rw [if_neg hc]
    push_neg at hc
    exact ⟨(max_eq_left hc.1).symm, (max_eq_left hc.2).symm⟩

/-- Splitting the cut loop at a successfully reached intermediate state. -/
theorem apply_edge_cuts_append_ok (K : Kernel) :
    ∀ (pre : List Face) (f g : Face) (post : List Face),
      (apply_edge_cuts K f pre).1 = .ok g →
      (apply_edge_cuts K f (pre ++ post)).1 = (apply_edge_cuts K g post).1
  | [], f, g, post, h => by
    have hfg : f = g := by simpa [apply_edge_cuts] using h
    rw [List.nil_append, hfg]
  | c :: pre, f, g, post, h => by
    rw [List.cons_append]
    cases hcut : K.cut f c with
    | none =>
      simp only [apply_edge_cuts, hcut] at h ⊢
      exact apply_edge_cuts_append_ok K pre f g post h
    | some fs =>
      cases hlf : largest_face fs with
      | none =>
        simp only [apply_edge_cuts, hcut, hlf] at h
        exact Except.noConfusion h
      | some f' =>
        simp only [apply_edge_cuts, hcut, hlf] at h ⊢
        exact apply_edge_cuts_append_ok K pre f' g post h

/-- The fold of `pickFace` lands on the seed or a list element, and its
area dominates the seed and every element. -/
theorem foldl_pickFace_spec :
    ∀ (fs : List Face) (f : Face),
      (fs.foldl pickFace f = f ∨ fs.foldl pickFace f ∈ fs) ∧
      faceArea f ≤ faceArea (fs.foldl pickFace f) ∧
      ∀ g ∈ fs, faceArea g ≤ faceArea (fs.foldl pickFace f)
  | [], f => ⟨.inl rfl, le_refl _, by simp⟩
  | a :: fs, f => by
    have IH := foldl_pickFace_spec fs (pickFace f a)
    have hseed : faceArea f ≤ faceArea (pickFace f a) := by
      unfold pickFace
      split
      · exact le_of_lt (by assumption)
      · exact le_refl _
    have ha : faceArea a ≤ faceArea (pickFace f a) := by
      unfold pickFace
      split
      · exact le_refl _
      · exact le_of_not_lt (by assumption)
    rw [List.foldl_cons]
    refine ⟨?_, le_trans hseed IH.2.1, ?_⟩
    · cases IH.1 with
      | inl h =>
        rw [h]
        unfold pickFace
        split
        · exact .inr (List.mem_cons_self a fs)
        · exact .inl rfl
      | inr h => exact .inr (List.mem_cons_of_mem a h)
    · intro g hg
      cases List.mem_cons.mp hg with
      | inl h => rw [h]; exact le_trans ha IH.2.1
      | inr h => exact IH.2.2 g h

/-- `_largest_face` returns a face of the list of maximal area. -/
theorem largest_face_spec (fs : List Face) (g : Face) (h : largest_face fs = some g) :
    g ∈ fs ∧ ∀ f ∈ fs, faceArea f ≤ faceArea g := by
  cases fs with
  | nil => exact Option.noConfusion h
  | cons f rest =>
    have hg : rest.foldl pickFace f = g := by simpa [largest_face] using h
    have spec := foldl_pickFace_spec rest f
    rw [hg] at spec
    constructor
    · cases spec.1 with
      | inl h' => rw [h']; exact List.mem_cons_self f rest
      | inr h' => exact List.mem_cons_of_mem f h'
    · intro x hx
      cases List.mem_cons.mp hx with
      | inl h' => rw [h']; exact spec.2.1
      | inr h' => exact spec.2.2 x h'

/-! Claim C3. -/

/-- Claim C3: for an edge-affecting placement with a specified edge the
cut face is registered translated by `Left → (0, position)`,
`Right → (width - effectiveWidth, position)`,
`Top → (position, height - effectiveHeight)`, `Bottom → (position, 0)`,
the effective dimensions being those of the rotated-and-renormalised
bounding box; and on the `800 × 1900` panel the anchored `50 × 30` profile
at `0°` lands at `(0, 500)` for `Left`/`500` and at `(750, 500)` for
`Right`/`500`. -/
theorem claim_C3 :
    (∀ (K : Kernel) (p : Panel2D) (a : PlacementArgs) (s : Shape) (w : Wire),
        profile_wire_from_shape s = .ok w → a.kind ≠ "internal_cutout" →
        K.makeFaceOk (edge_downstream_wire a w) [] = true →
        K.validFace (edge_placed_face p a w) = true →
        add_library_shape K p a s =
          .ok { p with edge_cuts := p.edge_cuts ++ [edge_placed_face p a w] }) ∧
    (∀ (p : Panel2D) (a : PlacementArgs) (w' : Wire),
        (a.edge = some "Left" → edge_translation p a w' = (0, a.position)) ∧
        (a.edge = some "Right" →
          edge_translation p a w' =
            (p.width - ((bboxWire w').x1 - (bboxWire w').x0), a.position)) ∧
        (a.edge = some "Top" →
          edge_translation p a w' =
            (a.position, p.height - ((bboxWire w').y1 - (bboxWire w').y0))) ∧
        (a.edge = some "Bottom" → edge_translation p a w' = (a.position, 0))) ∧
    (add_library_shape Kok panel800 argsLeft500 [prof5030] =
        .ok { panel800 with edge_cuts := [placedLeft] } ∧
      bboxFace placedLeft = ⟨0, 500, 50, 530⟩) ∧
    (add_library_shape Kok panel800 argsRight500 [prof5030] =
        .ok { panel800 with edge_cuts := [placedRight] } ∧
      bboxFace placedRight = ⟨750, 500, 800, 530⟩) := by
  refine ⟨?_, ?_, ⟨?_, ?_⟩, ⟨?_, ?_⟩⟩
  · intro K p a s w hprof hk hmk hv
    cases s with
    | nil => exact Except.noConfusion hprof
    | cons w0 rest =>
      have hw0 : w0 = w := by
        simpa [profile_wire_from_shape] using hprof
      subst hw0
      simp only [add_library_shape, profile_wire_from_shape, if_neg hk, hmk, hv, if_pos]
  · intro p a w'
    refine ⟨?_, ?_, ?_, ?_⟩ <;> intro h <;> simp [edge_translation, h]
  · norm_num [add_library_shape, profile_wire_from_shape, argsLeft500, edge_downstream_wire,
      edge_placed_face, edge_translation, translate_shape, translateWire, translatePt, tol12,
      bboxWire, bboxPts, bboxStep, prof5030, rectW, Kok, panel800, placedLeft,
      Wire.mk.injEq, Prod.mk.injEq]
    exact fun h => absurd h (by decide)
  · norm_num [bboxFace, placedLeft, bboxPts, bboxStep]
  · norm_num [add_library_shape, profile_wire_from_shape, argsRight500, edge_downstream_wire,
      edge_placed_face, edge_translation, translate_shape, translateWire, translatePt, tol12,
      bboxWire, bboxPts, bboxStep, prof5030, rectW, Kok, panel800, placedRight,
      Wire.mk.injEq, Prod.mk.injEq]
    exact fun h => absurd h (by decide)
  · norm_num [bboxFace, placedRight, bboxPts, bboxStep]

/-- Witness for C3 at a concrete bottom-edge placement. -/
theorem claim_C3_witness :
    add_library_shape Kok panel10 argsBottom3 [prof5030] =
      .ok { panel10 with edge_cuts := [edge_placed_face panel10 argsBottom3 prof5030] } :=
  claim_C3.1 Kok panel10 argsBottom3 [prof5030] prof5030 rfl (by decide) rfl rfl

/-! Claim C4. -/

/-- Claim C4: an internal-cutout placement registers the loaded profile
translated (never rotated — none of the angle fields influence the
result) so that its bounding-box centre lands at
`(originX + tx, originY + height - ty)`, and with its orientation
reversed relative to the as-loaded wire.  The tolerance hypothesis rules
out a nonzero centre-to-centre offset below the code's `1e-12` guard. -/
theorem claim_C4 (K : Kernel) (p : Panel2D) (a : PlacementArgs) (s : Shape) (w : Wire)
    (hk : a.kind = "internal_cutout") (hh : s.head? = some w) (hw : w.pts ≠ [])
    (htol : internal_translation p a w = (0, 0) ∨
      ¬(|(internal_translation p a w).1| < tol12 ∧ |(internal_translation p a w).2| < tol12)) :
    add_library_shape K p a s =
      .ok { p with inner_wires := p.inner_wires ++
        [reverseWire (translateWire (internal_translation p a w).1
          (internal_translation p a w).2 w)] } ∧
    (reverseWire (translateWire (internal_translation p a w).1
      (internal_translation p a w).2 w)).rev = !w.rev ∧
    bboxCenter (bboxWire (reverseWire (translateWire (internal_translation p a w).1
      (internal_translation p a w).2 w))) =
      (p.origin.1 + a.tx, p.origin.2 + p.height - a.ty) ∧
    (∀ a' : PlacementArgs, a'.kind = "internal_cutout" → a'.tx = a.tx → a'.ty = a.ty →
      add_library_shape K p a' s = add_library_shape K p a s) := by
  cases s with
  | nil => exact absurd hh (by simp)
  | cons w0 rest =>
    have hw0 : w = w0 := by simpa using hh.symm
    subst hw0
    have harith :
        bboxCenter (bboxShift (internal_translation p a w).1
            (internal_translation p a w).2 (bboxWire w)) =
          (p.origin.1 + a.tx, p.origin.2 + p.height - a.ty) := by
      simp only [bboxCenter, bboxShift, internal_translation, Prod.mk.injEq]
      constructor <;> ring
    have hcenter :
        bboxCenter (bboxWire (reverseWire (translateWire (internal_translation p a w).1
            (internal_translation p a w).2 w))) =
          (p.origin.1 + a.tx, p.origin.2 + p.height - a.ty) := by
      show bboxCenter (bboxWire (translateWire (internal_translation p a w).1
          (internal_translation p a w).2 w)) = _
      rw [bboxWire_translate _ _ w hw]
      exact harith
    have hindep : ∀ a' : PlacementArgs, a'.kind = "internal_cutout" → a'.tx = a.tx →
        a'.ty = a.ty → add_library_shape K p a' (w :: rest) = add_library_shape K p a (w :: rest) := by
      intro a' h1 h2 h3
      have hd : internal_translation p a' w = internal_translation p a w := by
        simp [internal_translation, h2, h3]
      simp only [add_library_shape, profile_wire_from_shape, h1, hk, hd, if_pos]
    by_cases hc : |(internal_translation p a w).1| < tol12 ∧
        |(internal_translation p a w).2| < tol12
    · have hzero : internal_translation p a w = (0, 0) := by
        cases htol with
        | inl h => exact h
        | inr h => exact absurd hc h
      have htw : translateWire (internal_translation p a w).1
          (internal_translation p a w).2 w = w := by
        rw [hzero]
        exact translateWire_zero w
      have hreg : add_library_shape K p a (w :: rest) =
          .ok { p with inner_wires := p.inner_wires ++ [reverseWire w] } := by
        simp only [add_library_shape, profile_wire_from_shape, if_pos hk, translate_shape,
          if_pos hc, List.head?]
      refine ⟨?_, rfl, hcenter, hindep⟩
      rw [htw]
      exact hreg
    · have hreg : add_library_shape K p a (w :: rest) =
          .ok { p with inner_wires := p.inner_wires ++
            [reverseWire (translateWire (internal_translation p a w).1
              (internal_translation p a w).2 w)] } := by
        simp only [add_library_shape, profile_wire_from_shape, if_pos hk, translate_shape,
          if_neg hc, List.map_cons, List.head?]
      exact ⟨hreg, rfl, hcenter, hindep⟩

/-- Witness for C4 at the spec scenario: panel `800 × 1900`, `tx = 400`,
`ty = 950`, profile a `20 × 20` square, nonzero rotation angle ignored. -/
theorem claim_C4_witness :
    add_library_shape Kok panel800 argsInt400 [w20] =
      .ok { panel800 with inner_wires :=
        [reverseWire (translateWire (internal_translation panel800 argsInt400 w20).1
          (internal_translation panel800 argsInt400 w20).2 w20)] } ∧
    bboxCenter (bboxWire (reverseWire (translateWire
      (internal_translation panel800 argsInt400 w20).1
      (internal_translation panel800 argsInt400 w20).2 w20))) = (400, 950) := by
  have h := claim_C4 Kok panel800 argsInt400 [w20] w20 rfl rfl (by
      simp [w20, rectW]) (by
      right
      norm_num [internal_translation, panel800, argsInt400, w20, rectW, bboxWire, bboxPts,
        bboxStep, tol12])
  refine ⟨?_, ?_⟩
  · have h1 := h.1
    simpa [panel800] using h1
  · have h31 := h.2.2.1
    have hpair : (panel800.origin.1 + argsInt400.tx,
        panel800.origin.2 + panel800.height - argsInt400.ty) = ((400 : ℚ), (950 : ℚ)) := by
      norm_num [panel800, argsInt400]
    rw [hpair] at h31
    exact h31

/-! Claim C5. -/

/-- Claim C5: in the cut accumulator, a cut whose boolean does not report
success leaves the current face unchanged (removing it from the sequence
does not change the outcome); a successful cut replaces the current face
by the largest-area face of the subtraction result; and when the final
face yields no wires, the pristine rectangular boundary wire is returned. -/
theorem claim_C5 :
    (∀ (K : Kernel) (p : Panel2D) (pre : List Face) (c : Face) (post : List Face) (g : Face),
        (apply_edge_cuts K (base_rect_face p) pre).1 = .ok g →
        K.cut g c = none →
        (apply_edge_cuts K (base_rect_face p) (pre ++ c :: post)).1 =
          (apply_edge_cuts K (base_rect_face p) (pre ++ post)).1) ∧
    (∀ (K : Kernel) (p : Panel2D) (pre : List Face) (c : Face) (post : List Face)
        (g : Face) (fs : List Face) (f' : Face),
        (apply_edge_cuts K (base_rect_face p) pre).1 = .ok g →
        K.cut g c = some fs →
        largest_face fs = some f' →
        (f' ∈ fs ∧ ∀ h ∈ fs, faceArea h ≤ faceArea f') ∧
        (apply_edge_cuts K (base_rect_face p) (pre ++ c :: post)).1 =
          (apply_edge_cuts K f' post).1) ∧
    (∀ (K : Kernel) (p : Panel2D),
        (apply_edge_cuts K (base_rect_face p) p.edge_cuts).1 = .ok [] →
        (outer_wire_after_edge_cuts K p).1 = .ok (make_outer_rect_wire p)) := by
  refine ⟨?_, ?_, ?_⟩
  · intro K p pre c post g hpre hcut
    rw [apply_edge_cuts_append_ok K pre _ g (c :: post) hpre,
      apply_edge_cuts_append_ok K pre _ g post hpre]
    simp only [apply_edge_cuts, hcut]
  · intro K p pre c post g fs f' hpre hcut hlf
    refine ⟨largest_face_spec fs f' hlf, ?_⟩
    rw [apply_edge_cuts_append_ok K pre _ g (c :: post) hpre]
    simp only [apply_edge_cuts, hcut, hlf]
  · intro K p h
    simp only [outer_wire_after_edge_cuts, h]

/-- Witness for C5: a failed boolean is a no-op on the `10 × 10` panel, a
successful one hands the largest fragment to the rest of the fold, and the
degenerate wireless face falls back to the pristine rectangle. -/
theorem claim_C5_witness :
    ((apply_edge_cuts Kc (base_rect_face panel10) ([fA] ++ fX :: [fB])).1 =
      (apply_edge_cuts Kc (base_rect_face panel10) ([fA] ++ [fB])).1) ∧
    ((fL ∈ [fL, fR] ∧ ∀ h ∈ [fL, fR], faceArea h ≤ faceArea fL) ∧
      (apply_edge_cuts Kc (base_rect_face panel10) ([] ++ fA :: [fB])).1 =
        (apply_edge_cuts Kc fL [fB]).1) ∧
    (outer_wire_after_edge_cuts Kc panelY).1 = .ok (make_outer_rect_wire panelY) := by
  have hbase : base_rect_face panel10 = faceP := by
    norm_num [base_rect_face, make_outer_rect_wire, panel10, faceP, rectF, rectW]
  have hpre : (apply_edge_cuts Kc (base_rect_face panel10) [fA]).1 = .ok fL := by
    rw [hbase]
    have hcutA : Kc.cut faceP fA = some [fL, fR] := by
      simp [Kc, tableCut]
    have hlfA : largest_face [fL, fR] = some fL := by
      norm_num [largest_face, pickFace, faceArea, wireArea, shoelace, crossSum,
        fL, fR, rectF, rectW]
    simp only [apply_edge_cuts, hcutA, hlfA]
  have hcutX : Kc.cut fL fX = none := by
    norm_num [Kc, tableCut, fL, fX, faceP, fA, fB, fA2, fB2, fA3, fB3, fY, fPB, fPB2, fPB3,
      fPA2, fR3, rectF, rectW, Wire.mk.injEq, Prod.mk.injEq]
  have hcutA : Kc.cut (base_rect_face panel10) fA = some [fL, fR] := by
    rw [hbase]
    simp [Kc, tableCut]
  have hlfA : largest_face [fL, fR] = some fL := by
    norm_num [largest_face, pickFace, faceArea, wireArea, shoelace, crossSum,
      fL, fR, rectF, rectW]
  have hY : (apply_edge_cuts Kc (base_rect_face panelY) panelY.edge_cuts).1 = .ok [] := by
    have hbaseY : base_rect_face panelY = faceP := by
      norm_num [base_rect_face, make_outer_rect_wire, panelY, faceP, rectF, rectW]
    have hcutY : Kc.cut faceP fY = some [emptyFace] := by
      norm_num [Kc, tableCut, fY, faceP, fA, fB, fA2, fB2, fA3, fB3, fPB, fPB2, fPB3,
        fPA2, fR3, fL, rectF, rectW, Wire.mk.injEq, Prod.mk.injEq]
    show (apply_edge_cuts Kc (base_rect_face panelY) [fY]).1 = .ok []
    rw [hbaseY]
    simp only [apply_edge_cuts, hcutY, largest_face, List.foldl_nil, emptyFace]
  exact ⟨claim_C5.1 Kc panel10 [fA] fX [fB] fL hpre hcutX,
    claim_C5.2.1 Kc panel10 [] fA [fB] (base_rect_face panel10) [fL, fR] fL rfl hcutA hlfA,
    claim_C5.2.2 Kc panelY hY⟩

/-! Claim C6. -/

/-- Claim C6 as stated is false: the full-height slot `fA = [6,7] × [0,10]`
and the block `fB = [0,5] × [0,7]` have disjoint footprints (even their
bounding boxes are disjoint), yet the two application orders produce
different final outer boundaries.  Cutting `fA` first keeps the larger
left fragment (area `60`) and then carves `fB` out of it (final area
`25`); cutting `fB` first leaves one face of area `65`, and `fA` then
splits it into fragments of areas `25` and `30`, of which the largest-face
rule keeps the right rectangle. -/
theorem claim_C6_counterexample :
    bboxDisjoint (bboxFace fA) (bboxFace fB) ∧
    (outer_wire_after_edge_cuts Kc panelAB).1 ≠
      (outer_wire_after_edge_cuts Kc panelBA).1 := by
  constructor
  · norm_num [bboxDisjoint, bboxFace, bboxPts, bboxStep, fA, fB, rectF, rectW]
  · have h1 : (outer_wire_after_edge_cuts Kc panelAB).1 =
        .ok ⟨[(5, 0), (6, 0), (6, 10), (0, 10), (0, 7), (5, 7)], false⟩ := by
      norm_num [outer_wire_after_edge_cuts, apply_edge_cuts, Kc, tableCut, panelAB,
        base_rect_face, make_outer_rect_wire, faceP, fA, fB, fL, fR, fLB, fPB, fA2, fB2, fPA2, fPB2, fOct, fA3, fB3, fL3, fR3, fR3B, fPB3, fX, fY, emptyFace, rectF, rectW,
        largest_face, pickFace, faceArea, wireArea, shoelace, crossSum,
        largest_wire_by_area_proxy, pickWire, Wire.mk.injEq, Prod.mk.injEq,
        -Prod.mk_zero_zero]
    have h2 : (outer_wire_after_edge_cuts Kc panelBA).1 =
        .ok ⟨[(7, 0), (10, 0), (10, 10), (7, 10)], false⟩ := by
      norm_num [outer_wire_after_edge_cuts, apply_edge_cuts, Kc, tableCut, panelBA,
        base_rect_face, make_outer_rect_wire, faceP, fA, fB, fL, fR, fLB, fPB, fA2, fB2, fPA2, fPB2, fOct, fA3, fB3, fL3, fR3, fR3B, fPB3, fX, fY, emptyFace, rectF, rectW,
        largest_face, pickFace, faceArea, wireArea, shoelace, crossSum,
        largest_wire_by_area_proxy, pickWire, Wire.mk.injEq, Prod.mk.injEq,
        -Prod.mk_zero_zero]
    rw [h1, h2]
    intro h
    norm_num [Wire.mk.injEq, Prod.mk.injEq] at h

/-- Claim C6, amended: disjointness of the footprints is not enough for
order-independence (see the counterexample); what holds is that disjoint
cuts that keep the panel in one piece commute — the two corner notches
`fA2`, `fB2` yield the same final boundary in both orders — while an
overlapping pair (`fA3`, `fB3`, sharing the square `[5,10] × [0,1]`) can
again produce different boundaries in the two orders. -/
theorem claim_C6 :
    (bboxDisjoint (bboxFace fA2) (bboxFace fB2) ∧
      (outer_wire_after_edge_cuts Kc panelA2B2).1 =
        (outer_wire_after_edge_cuts Kc panelB2A2).1) ∧
    (¬ bboxDisjoint (bboxFace fA3) (bboxFace fB3) ∧
      (outer_wire_after_edge_cuts Kc panelA3B3).1 ≠
        (outer_wire_after_edge_cuts Kc panelB3A3).1) := by
  refine ⟨⟨?_, ?_⟩, ?_, ?_⟩
  · norm_num [bboxDisjoint, bboxFace, bboxPts, bboxStep, fA2, fB2, rectF, rectW]
  · have h1 : (outer_wire_after_edge_cuts Kc panelA2B2).1 =
        .ok ⟨[(2, 0), (10, 0), (10, 8), (8, 8), (8, 10), (0, 10), (0, 2), (2, 2)], false⟩ := by
      norm_num [outer_wire_after_edge_cuts, apply_edge_cuts, Kc, tableCut, panelA2B2,
        base_rect_face, make_outer_rect_wire, faceP, fA, fB, fL, fR, fLB, fPB, fA2, fB2, fPA2, fPB2, fOct, fA3, fB3, fL3, fR3, fR3B, fPB3, fX, fY, emptyFace,
        rectF, rectW, largest_face, pickFace, faceArea, wireArea, shoelace, crossSum,
        largest_wire_by_area_proxy, pickWire, Wire.mk.injEq, Prod.mk.injEq,
        -Prod.mk_zero_zero]
    have h2 : (outer_wire_after_edge_cuts Kc panelB2A2).1 =
        .ok ⟨[(2, 0), (10, 0), (10, 8), (8, 8), (8, 10), (0, 10), (0, 2), (2, 2)], false⟩ := by
      norm_num [outer_wire_after_edge_cuts, apply_edge_cuts, Kc, tableCut, panelB2A2,
        base_rect_face, make_outer_rect_wire, faceP, fA, fB, fL, fR, fLB, fPB, fA2, fB2, fPA2, fPB2, fOct, fA3, fB3, fL3, fR3, fR3B, fPB3, fX, fY, emptyFace,
        rectF, rectW, largest_face, pickFace, faceArea, wireArea, shoelace, crossSum,
        largest_wire_by_area_proxy, pickWire, Wire.mk.injEq, Prod.mk.injEq,
        -Prod.mk_zero_zero]
    rw [h1, h2]
  · norm_num [bboxDisjoint, bboxFace, bboxPts, bboxStep, fA3, fB3, rectF, rectW]
  · have h1 : (outer_wire_after_edge_cuts Kc panelA3B3).1 =
        .ok ⟨[(5, 6), (10, 6), (10, 10), (5, 10)], false⟩ := by
      norm_num [outer_wire_after_edge_cuts, apply_edge_cuts, Kc, tableCut, panelA3B3,
        base_rect_face, make_outer_rect_wire, faceP, fA, fB, fL, fR, fLB, fPB, fA2, fB2, fPA2, fPB2, fOct, fA3, fB3, fL3, fR3, fR3B, fPB3, fX, fY, emptyFace,
        rectF, rectW, largest_face, pickFace, faceArea, wireArea, shoelace, crossSum,
        largest_wire_by_area_proxy, pickWire, Wire.mk.injEq, Prod.mk.injEq,
        -Prod.mk_zero_zero]
    have h2 : (outer_wire_after_edge_cuts Kc panelB3A3).1 =
        .ok ⟨[(0, 1), (4, 1), (4, 10), (0, 10)], false⟩ := by
      norm_num [outer_wire_after_edge_cuts, apply_edge_cuts, Kc, tableCut, panelB3A3,
        base_rect_face, make_outer_rect_wire, faceP, fA, fB, fL, fR, fLB, fPB, fA2, fB2, fPA2, fPB2, fOct, fA3, fB3, fL3, fR3, fR3B, fPB3, fX, fY, emptyFace,
        rectF, rectW, largest_face, pickFace, faceArea, wireArea, shoelace, crossSum,
        largest_wire_by_area_proxy, pickWire, Wire.mk.injEq, Prod.mk.injEq,
        -Prod.mk_zero_zero]
    rw [h1, h2]
    intro h
    norm_num [Wire.mk.injEq, Prod.mk.injEq] at h

/-! Claim C7. -/

/-- Claim C7 as stated is false for internal cutouts: the internal-cutout
branch performs no topological validation at all, so a placement whose
placed wire the analyzer would reject (here a kernel rejecting every
wire) is still registered in the inner-wire list. -/
theorem claim_C7_counterexample :
    add_library_shape Krej panel800 argsInt400 [w20] =
      .ok ⟨800, 1900, (0, 0), [],
        [⟨[(390, 940), (410, 940), (410, 960), (390, 960)], true⟩]⟩ ∧
    Krej.validWire ⟨[(390, 940), (410, 940), (410, 960), (390, 960)], true⟩ = false := by
  constructor
  · norm_num [add_library_shape, profile_wire_from_shape, internal_translation,
      translate_shape, translateWire, translatePt, reverseWire, tol12, bboxWire, bboxPts,
      bboxStep, Krej, panel800, argsInt400, w20, rectW, Wire.mk.injEq, Prod.mk.injEq,
      -Prod.mk_zero_zero]
  · rfl

/-- Claim C7, amended: only the edge-affecting branch is gated by the
Validator — an edge placement whose transformed cut face fails the
analyzer is silently dropped (nothing registered, no exception) — while
the internal-cutout branch never consults the kernel at all, registering
its wire regardless of validity. -/
theorem claim_C7 :
    (∀ (K : Kernel) (p : Panel2D) (a : PlacementArgs) (s : Shape) (w : Wire),
        profile_wire_from_shape s = .ok w → a.kind ≠ "internal_cutout" →
        K.makeFaceOk (edge_downstream_wire a w) [] = true →
        K.validFace (edge_placed_face p a w) = false →
        add_library_shape K p a s = .ok p) ∧
    (∀ (K K' : Kernel) (p : Panel2D) (a : PlacementArgs) (s : Shape),
        a.kind = "internal_cutout" →
        add_library_shape K p a s = add_library_shape K' p a s) := by
  constructor
  · intro K p a s w hprof hk hmk hv
    cases s with
    | nil => exact Except.noConfusion hprof
    | cons w0 rest =>
      have hw0 : w = w0 := by
        simpa [profile_wire_from_shape] using hprof.symm
      subst hw0
      simp only [add_library_shape, profile_wire_from_shape, if_neg hk, hmk, hv, if_pos]
      simp
  · intro K K' p a s hk
    cases s with
    | nil => rfl
    | cons w0 rest =>
      simp only [add_library_shape, profile_wire_from_shape, if_pos hk]

/-- Witness for C7: the all-rejecting kernel drops a bottom-edge
placement without error, and the internal path is insensitive to the
kernel entirely. -/
theorem claim_C7_witness :
    add_library_shape Krej panel10 argsBottom3 [prof5030] = .ok panel10 ∧
    add_library_shape Krej panel800 argsInt400 [w20] =
      add_library_shape Kok panel800 argsInt400 [w20] :=
  ⟨claim_C7.1 Krej panel10 argsBottom3 [prof5030] prof5030 rfl (by decide) rfl rfl,
   claim_C7.2 Krej Kok panel800 argsInt400 [w20] rfl⟩

/-! Claim C8. -/

/-- Claim C8 as stated is false: on a successful concrete build the trace
of kernel operations contains a (final) validation but no orientation-fix
operation at all — `ShapeFix_Face` is imported by `panel2d.py` and never
used. -/
theorem claim_C8_counterexample :
    as_shapeT Kok panel800 = (.ok [make_outer_rect_wire panel800],
      [KOp.makeFaceOp, KOp.validateOp]) ∧
    KOp.fixFaceOp ∉ (as_shapeT Kok panel800).2 ∧
    KOp.validateOp ∈ (as_shapeT Kok panel800).2 := by
  have h : as_shapeT Kok panel800 = (.ok [make_outer_rect_wire panel800],
      [KOp.makeFaceOp, KOp.validateOp]) := by
    norm_num [as_shapeT, build_with_holes, Kok, panel800]
  refine ⟨h, ?_, ?_⟩ <;> rw [h] <;> decide

/-- Every operation the cut loop records is a boolean cut. -/
theorem apply_edge_cuts_ops (K : Kernel) :
    ∀ (cs : List Face) (f : Face) (op : KOp),
      op ∈ (apply_edge_cuts K f cs).2 → op = .cutOp
  | [], f, op, h => absurd h (by simp [apply_edge_cuts])
  | c :: cs, f, op, h => by
    cases hcut : K.cut f c with
    | none =>
      simp only [apply_edge_cuts, hcut, List.mem_cons] at h
      cases h with
      | inl h' => exact h'
      | inr h' => exact apply_edge_cuts_ops K cs f op h'
    | some fs =>
      cases hlf : largest_face fs with
      | none =>
        simp only [apply_edge_cuts, hcut, hlf, List.mem_cons, List.not_mem_nil, or_false] at h
        exact h
      | some f' =>
        simp only [apply_edge_cuts, hcut, hlf, List.mem_cons] at h
        cases h with
        | inl h' => exact h'
        | inr h' => exact apply_edge_cuts_ops K cs f' op h'

/-- The hole-assembly step records face construction and, when
construction completes, the validation. -/
theorem build_with_holes_ops (K : Kernel) (ow : Wire) (hs : List Wire) :
    (build_with_holes K ow hs).2 = [KOp.makeFaceOp, KOp.validateOp] ∨
    (build_with_holes K ow hs).2 = [KOp.makeFaceOp] := by
  unfold build_with_holes
  by_cases hmk : K.makeFaceOk ow hs
  · rw [if_pos hmk]
    by_cases hv : K.validFace (ow :: hs)
    · rw [if_pos hv]; exact .inl rfl
    · rw [if_neg hv]; exact .inl rfl
  · rw [if_neg hmk]; exact .inr rfl

/-- A successful hole assembly always records the validation. -/
theorem build_with_holes_ok_ops (K : Kernel) (ow : Wire) (hs : List Wire) (f : Face)
    (h : (build_with_holes K ow hs).1 = .ok f) :
    (build_with_holes K ow hs).2 = [KOp.makeFaceOp, KOp.validateOp] := by
  unfold build_with_holes at h ⊢
  by_cases hmk : K.makeFaceOk ow hs
  · rw [if_pos hmk] at h ⊢
    by_cases hv : K.validFace (ow :: hs)
    · rw [if_pos hv]
    · rw [if_neg hv] at h; exact Except.noConfusion h
  · rw [if_neg hmk] at h; exact Except.noConfusion h

/-- The outer-wire computation records exactly the cut loop's operations. -/
theorem outer_wire_ops (K : Kernel) (p : Panel2D) :
    (outer_wire_after_edge_cuts K p).2 =
      (apply_edge_cuts K (base_rect_face p) p.edge_cuts).2 := by
  unfold outer_wire_after_edge_cuts
  dsimp only
  cases (apply_edge_cuts K (base_rect_face p) p.edge_cuts).1 with
  | error e => rfl
  | ok f =>
    cases f with
    | nil => rfl
    | cons w ws =>
      cases largest_wire_by_area_proxy (w :: ws) with
      | none => rfl
      | some w' => rfl

/-- Claim C8, amended: no orientation-fix pass is ever performed (the
`ShapeFix_Face` capability is imported but unused), and the mandatory
final validation still runs: every build that returns a face records a
validation among its kernel operations and the face passed the analyzer. -/
theorem claim_C8 (K : Kernel) (p : Panel2D) :
    KOp.fixFaceOp ∉ (as_shapeT K p).2 ∧
    (∀ f, (as_shapeT K p).1 = .ok f →
      KOp.validateOp ∈ (as_shapeT K p).2 ∧ K.validFace f = true) := by
  constructor
  · intro hmem
    unfold as_shapeT at hmem
    by_cases he : p.edge_cuts.isEmpty
    · rw [if_pos he] at hmem
      cases build_with_holes_ops K (make_outer_rect_wire p) p.inner_wires with
      | inl h => rw [h] at hmem; simp at hmem
      | inr h => rw [h] at hmem; simp at hmem
    · rw [if_neg he] at hmem
      dsimp only at hmem
      cases hr : (outer_wire_after_edge_cuts K p).1 with
      | error e =>
        rw [hr] at hmem
        dsimp only at hmem
        have hcut : (KOp.fixFaceOp : KOp) = .cutOp := by
          apply apply_edge_cuts_ops K p.edge_cuts (base_rect_face p)
          rw [← outer_wire_ops K p]
          exact hmem
        exact KOp.noConfusion hcut
      | ok ow =>
        rw [hr] at hmem
        dsimp only at hmem
        rw [List.mem_append] at hmem
        cases hmem with
        | inl h =>
          have hcut : (KOp.fixFaceOp : KOp) = .cutOp := by
            apply apply_edge_cuts_ops K p.edge_cuts (base_rect_face p)
            rw [← outer_wire_ops K p]
            exact h
          exact KOp.noConfusion hcut
        | inr h =>
          cases build_with_holes_ops K ow p.inner_wires with
          | inl h' => rw [h'] at h; simp at h
          | inr h' => rw [h'] at h; simp at h
  · intro f hok
    have hvalid := as_shape_ok_spec K p f hok
    constructor
    · unfold as_shapeT at hok ⊢
      by_cases he : p.edge_cuts.isEmpty
      · rw [if_pos he] at hok ⊢
        rw [build_with_holes_ok_ops K _ _ f hok]
        simp
      · rw [if_neg he] at hok ⊢
        dsimp only at hok ⊢
        cases hr : (outer_wire_after_edge_cuts K p).1 with
        | error e =>
          rw [hr] at hok
          dsimp only at hok
          exact Except.noConfusion hok
        | ok ow =>
          rw [hr] at hok
          dsimp only at hok ⊢
          rw [List.mem_append]
          right
          rw [build_with_holes_ok_ops K ow p.inner_wires f hok]
          simp
    · exact hvalid.2

/-- Witness for C8 at a concrete build on the table kernel. -/
theorem claim_C8_witness :
    KOp.fixFaceOp ∉ (as_shapeT Kc panel10).2 ∧
    KOp.validateOp ∈ (as_shapeT Kc panel10).2 ∧
    Kc.validFace [make_outer_rect_wire panel10] = true := by
  have h := (claim_C8 Kc panel10).2 [make_outer_rect_wire panel10] (by
    norm_num [as_shapeT, build_with_holes, Kc, panel10])
  exact ⟨(claim_C8 Kc panel10).1, h.1, h.2⟩

/-! Claim C9. -/

/-- Claim C9 as stated is false in its renormalisation clause: rotating
the triangle `wTri` by `(c, s) = (4/5, 3/5)` about its bounding-box
minimum corner `(0, 0)` gives bounds `x ∈ [-3, 4]`, `y ∈ [3, 7]`; only
the negative `x` coordinate is translated up to `0`, so the renormalised
minimum corner is `(0, 3)`, not `(0, 0)`. -/
theorem claim_C9_counterexample :
    ((4 : ℚ) / 5) ^ 2 + ((3 : ℚ) / 5) ^ 2 = 1 ∧
    tol12 < |aRot37.angle_deg| ∧
    (bboxWire (rotate_wire_around_center (4 / 5) (3 / 5) wTri)).x0 < 0 ∧
    edge_downstream_wire aRot37 wTri =
      normalize_after_rotation (rotate_wire_around_center (4 / 5) (3 / 5) wTri) ∧
    bboxWire (edge_downstream_wire aRot37 wTri) = ⟨0, 3, 7, 7⟩ ∧
    (bboxWire (edge_downstream_wire aRot37 wTri)).y0 ≠ 0 := by
  refine ⟨by norm_num, by norm_num [tol12, aRot37], ?_, ?_, ?_, ?_⟩ <;>
    norm_num [edge_downstream_wire, normalize_after_rotation, rotate_wire_around_center,
      rotPt, translateWire, translatePt, bboxWire, bboxPts, bboxStep, tol12, aRot37, wTri,
      BBox.mk.injEq, -Prod.mk_zero_zero]

/-- Claim C9, amended: with a nonzero angle the wire is rotated about its
bounding-box minimum corner and then renormalised coordinatewise — each
strictly negative bounding-box minimum coordinate is brought to `0`, a
nonnegative one is left unchanged, so the renormalised minimum corner is
`(max rx0 0, max ry0 0)` (equal to `(0, 0)` only when both coordinates
were nonpositive). -/
theorem claim_C9 (a : PlacementArgs) (w : Wire) (hw : w.pts ≠ [])
    (hang : tol12 < |a.angle_deg|) :
    edge_downstream_wire a w =
      normalize_after_rotation (rotate_wire_around_center a.c a.s w) ∧
    (bboxWire (edge_downstream_wire a w)).x0 =
      max (bboxWire (rotate_wire_around_center a.c a.s w)).x0 0 ∧
    (bboxWire (edge_downstream_wire a w)).y0 =
      max (bboxWire (rotate_wire_around_center a.c a.s w)).y0 0 := by
  have hrot : (rotate_wire_around_center a.c a.s w).pts ≠ [] := by
    cases hp : w.pts with
    | nil => exact absurd hp hw
    | cons q qs => simp [rotate_wire_around_center, hp]
  have hdw : edge_downstream_wire a w =
      normalize_after_rotation (rotate_wire_around_center a.c a.s w) := by
    unfold edge_downstream_wire
    rw [if_pos hang]
  refine ⟨hdw, ?_, ?_⟩
  · rw [hdw]
    exact (normalize_bbox_min (rotate_wire_around_center a.c a.s w) hrot).1
  · rw [hdw]
    exact (normalize_bbox_min (rotate_wire_around_center a.c a.s w) hrot).2

/-- Witness for C9 at the concrete rotated triangle. -/
theorem claim_C9_witness :
    edge_downstream_wire aRot37 wTri =
      normalize_after_rotation (rotate_wire_around_center aRot37.c aRot37.s wTri) ∧
    (bboxWire (edge_downstream_wire aRot37 wTri)).x0 =
      max (bboxWire (rotate_wire_around_center aRot37.c aRot37.s wTri)).x0 0 ∧
    (bboxWire (edge_downstream_wire aRot37 wTri)).y0 =
      max (bboxWire (rotate_wire_around_center aRot37.c aRot37.s wTri)).y0 0 :=
  claim_C9 aRot37 wTri (by simp [wTri]) (by norm_num [tol12, aRot37])

/-! Claim C10. -/

/-- Claim C10: every successful call of `add_library_shape` leaves the
panel's width, height and origin unchanged and appends at most one
element to exactly one pending list — `kind = "internal_cutout"` never
touches the edge-cut list, and any other kind string (the value is never
validated) takes the edge-affecting path and never touches the inner-wire
list. -/
theorem claim_C10 (K : Kernel) (p : Panel2D) (a : PlacementArgs) (s : Shape) (r : Panel2D)
    (h : add_library_shape K p a s = .ok r) :
    r.width = p.width ∧ r.height = p.height ∧ r.origin = p.origin ∧
    (a.kind = "internal_cutout" → r.edge_cuts = p.edge_cuts ∧
      (r.inner_wires = p.inner_wires ∨ ∃ w, r.inner_wires = p.inner_wires ++ [w])) ∧
    (a.kind ≠ "internal_cutout" → r.inner_wires = p.inner_wires ∧
      (r.edge_cuts = p.edge_cuts ∨ ∃ f, r.edge_cuts = p.edge_cuts ++ [f])) := by
  cases s with
  | nil => exact Except.noConfusion h
  | cons w0 rest =>
    simp only [add_library_shape, profile_wire_from_shape] at h
    by_cases hk : a.kind = "internal_cutout"
    · rw [if_pos hk] at h
      cases hh : (translate_shape (internal_translation p a w0).1
          (internal_translation p a w0).2 (w0 :: rest)).head? with
      | some pw =>
        rw [hh] at h
        have hr : { p with inner_wires := p.inner_wires ++ [reverseWire pw] } = r := by
          simpa using h
        rw [← hr]
        refine ⟨rfl, rfl, rfl, fun _ => ⟨rfl, .inr ⟨reverseWire pw, rfl⟩⟩,
          fun hin => absurd hk hin⟩
      | none =>
        rw [hh] at h
        have hr : p = r := by simpa using h
        rw [← hr]
        exact ⟨rfl, rfl, rfl, fun _ => ⟨rfl, .inl rfl⟩, fun hin => absurd hk hin⟩
    · rw [if_neg hk] at h
      by_cases hmk : K.makeFaceOk (edge_downstream_wire a w0) []
      · rw [if_pos hmk] at h
        by_cases hv : K.validFace (edge_placed_face p a w0)
        · rw [if_pos hv] at h
          have hr : { p with edge_cuts := p.edge_cuts ++ [edge_placed_face p a w0] } = r := by
            simpa using h
          rw [← hr]
          exact ⟨rfl, rfl, rfl, fun hin => absurd hin hk,
            fun _ => ⟨rfl, .inr ⟨edge_placed_face p a w0, rfl⟩⟩⟩
        · rw [if_neg hv] at h
          have hr : p = r := by simpa using h
          rw [← hr]
          exact ⟨rfl, rfl, rfl, fun hin => absurd hin hk, fun _ => ⟨rfl, .inl rfl⟩⟩
      · rw [if_neg hmk] at h
        exact Except.noConfusion h

/-- Witness for C10 at the concrete bottom-edge registration. -/
theorem claim_C10_witness :
    pReg10.width = panel10.width ∧ pReg10.height = panel10.height ∧
    pReg10.origin = panel10.origin ∧
    (argsBottom3.kind = "internal_cutout" → pReg10.edge_cuts = panel10.edge_cuts ∧
      (pReg10.inner_wires = panel10.inner_wires ∨
        ∃ w, pReg10.inner_wires = panel10.inner_wires ++ [w])) ∧
    (argsBottom3.kind ≠ "internal_cutout" → pReg10.inner_wires = panel10.inner_wires ∧
      (pReg10.edge_cuts = panel10.edge_cuts ∨
        ∃ f, pReg10.edge_cuts = panel10.edge_cuts ++ [f])) :=
  claim_C10 Kok panel10 argsBottom3 [prof5030] pReg10 (by
    norm_num [add_library_shape, profile_wire_from_shape, argsBottom3, edge_downstream_wire,
      edge_placed_face, edge_translation, translate_shape, translateWire, translatePt, tol12,
      bboxWire, bboxPts, bboxStep, prof5030, rectW, Kok, panel10, pReg10,
      Wire.mk.injEq, Prod.mk.injEq, -Prod.mk_zero_zero]
    exact fun h => absurd h (by decide))

end CPQ4
